import Mathlib

/-!
Verification development for the x402 payment-gated Celestia blob gateway
(TypeScript sources: `src/blob-request.ts`, `src/pricing.ts`,
`src/idempotency-store.ts`, `src/index.ts`).

The TypeScript code is shallowly embedded: pure functions become Lean
functions, the stateful idempotency store / quote cache become explicit
state-passing functions over association lists (modelling JS `Map`),
JS `number` arithmetic in the pricing engine is modelled over `ℚ`,
millisecond clocks are explicit `ℕ` parameters, and fallible code returns
`Option` / `Except`.
-/

deriving instance DecidableEq for Except

namespace X402

/-! ## Base64 (from `src/blob-request.ts`)

`isBase64CharCode` and the padding scan are transliterated from
`isBase64CharCode` / the character loop of `decodeStrictBase64`.
`encodeB64` models Node's `Buffer.prototype.toString("base64")`
(canonical RFC 4648 encoding with padding) and `decodeB64` models
`Buffer.from(value, "base64")` restricted to inputs that pass the
structural scan (on such inputs Node's forgiving decoder coincides with
the standard group decoder that drops non-canonical trailing bits). -/

/-- From `isBase64CharCode` in `src/blob-request.ts`: A-Z, a-z, 0-9, `+`, `/`. -/
def isBase64CharCode (code : Nat) : Bool :=
  (0x41 ≤ code && code ≤ 0x5a) ||
  (0x61 ≤ code && code ≤ 0x7a) ||
  (0x30 ≤ code && code ≤ 0x39) ||
  code == 0x2b ||
  code == 0x2f

/-- Character-level wrapper: JS `value.charCodeAt(i)` is `Char.toNat` here. -/
def isBase64Char (c : Char) : Bool := isBase64CharCode c.toNat

/-- The base64 alphabet: value `v < 64` to its character. -/
def b64chr (v : Nat) : Char :=
  if v < 26 then Char.ofNat (65 + v)
  else if v < 52 then Char.ofNat (97 + (v - 26))
  else if v < 62 then Char.ofNat (48 + (v - 52))
  else if v = 62 then '+'
  else '/'

/-- Inverse alphabet lookup: character to its 6-bit value, `none` off-alphabet. -/
def b64val (c : Char) : Option Nat :=
  if 65 ≤ c.toNat ∧ c.toNat ≤ 90 then some (c.toNat - 65)
  else if 97 ≤ c.toNat ∧ c.toNat ≤ 122 then some (c.toNat - 97 + 26)
  else if 48 ≤ c.toNat ∧ c.toNat ≤ 57 then some (c.toNat - 48 + 52)
  else if c.toNat = 43 then some 62
  else if c.toNat = 47 then some 63
  else none

/-- Canonical base64 encoding of a byte list (values < 256), with `=` padding:
model of `Buffer.prototype.toString("base64")`. -/
def encodeB64 : List Nat → List Char
  | [] => []
  | [x] => [b64chr (x / 4), b64chr (x % 4 * 16), '=', '=']
  | [x, y] => [b64chr (x / 4), b64chr (x % 4 * 16 + y / 16), b64chr (y % 16 * 4), '=']
  | x :: y :: z :: rest =>
      b64chr (x / 4) :: b64chr (x % 4 * 16 + y / 16) ::
        b64chr (y % 16 * 4 + z / 64) :: b64chr (z % 64) :: encodeB64 rest

/-- Decode a final `xx==` group: one byte, the low 4 bits of the second
character are dropped (as `Buffer.from` does). -/
def decodePair (a b : Char) : Option (List Nat) :=
  match b64val a, b64val b with
  | some va, some vb => some [va * 4 + vb / 16]
  | _, _ => none

/-- Decode a final `xxx=` group: two bytes, low 2 bits of the third dropped. -/
def decodeTrip (a b c : Char) : Option (List Nat) :=
  match b64val a, b64val b, b64val c with
  | some va, some vb, some vc => some [va * 4 + vb / 16, vb % 16 * 16 + vc / 4]
  | _, _, _ => none

/-- Decode a full 4-character group into three bytes. -/
def decodeQuad (a b c d : Char) : Option (List Nat) :=
  match b64val a, b64val b, b64val c, b64val d with
  | some va, some vb, some vc, some vd =>
      some [va * 4 + vb / 16, vb % 16 * 16 + vc / 4, vc % 4 * 64 + vd]
  | _, _, _, _ => none

/-- Group decoder: model of `Buffer.from(value, "base64")` on strings that
passed the structural scan of `decodeStrictBase64` (length divisible by 4,
padding only as the final one or two characters). -/
def decodeB64 : List Char → Option (List Nat)
  | [] => some []
  | a :: b :: c :: d :: rest =>
      if rest = [] ∧ d = '=' then
        if c = '=' then decodePair a b else decodeTrip a b c
      else
        match decodeQuad a b c d, decodeB64 rest with
        | some grp, some tail => some (grp ++ tail)
        | _, _ => none
  | _ => none

/-- The character loop of `decodeStrictBase64`, as a recursion over the
remaining characters. The source's index test `i < value.length - 2`
("padding can only appear in the last 2 positions") holds exactly when at
least two characters follow position `i`, i.e. `2 ≤ rest.length`. The
`sawPadding` flag is the source's `encounteredPadding`. -/
def paddingScan : List Char → Bool → Bool
  | [], _ => true
  | c :: rest, sawPadding =>
      if c = '=' then
        if 2 ≤ rest.length then false
        else paddingScan rest true
      else if sawPadding then false
      else if isBase64Char c then paddingScan rest sawPadding
      else false

/-- From `decodeStrictBase64` in `src/blob-request.ts`: length must be a
multiple of 4; the character scan must pass; the decoded bytes must be
non-empty; re-encoding the decoded bytes must reproduce the input exactly.
(The `none` branch of `decodeB64` is unreachable once the scan passed.) -/
def decodeStrictBase64 (value : List Char) : Except String (List Nat) :=
  if value.length % 4 ≠ 0 then .error "must be base64 encoded"
  else if paddingScan value false = false then .error "must be base64 encoded"
  else
    match decodeB64 value with
    | none => .error "must be base64 encoded"
    | some decoded =>
        if decoded.length = 0 then .error "must not decode to empty data"
        else if encodeB64 decoded ≠ value then .error "is not valid canonical base64"
        else .ok decoded

/-! ### Base64 lemmas -/

theorem b64val_lt {c : Char} {v : Nat} (h : b64val c = some v) : v < 64 := by
  unfold b64val at h
  split_ifs at h <;> simp only [Option.some.injEq] at h <;> omega

theorem b64val_b64chr_fin : ∀ v : Fin 64, b64val (b64chr v.val) = some v.val := by decide

theorem isBase64Char_b64chr_fin : ∀ v : Fin 64, isBase64Char (b64chr v.val) = true := by decide

theorem b64chr_ne_pad_fin : ∀ v : Fin 64, b64chr v.val ≠ '=' := by decide

theorem b64val_b64chr {v : Nat} (h : v < 64) : b64val (b64chr v) = some v :=
  b64val_b64chr_fin ⟨v, h⟩

theorem isBase64Char_b64chr {v : Nat} (h : v < 64) : isBase64Char (b64chr v) = true :=
  isBase64Char_b64chr_fin ⟨v, h⟩

theorem b64chr_ne_pad {v : Nat} (h : v < 64) : b64chr v ≠ '=' :=
  b64chr_ne_pad_fin ⟨v, h⟩

theorem encodeB64_length_mod : ∀ b : List Nat, (encodeB64 b).length % 4 = 0
  | [] => rfl
  | [_] => by simp [encodeB64]
  | [_, _] => by simp [encodeB64]
  | _ :: _ :: _ :: rest => by
      have ih := encodeB64_length_mod rest
      simp only [encodeB64, List.length_cons]
      omega

theorem paddingScan_encode :
    ∀ b : List Nat, (∀ v ∈ b, v < 256) → paddingScan (encodeB64 b) false = true
  | [] => fun _ => rfl
  | [x] => by
      intro hb
      have hx : x < 256 := hb x (by simp)
      have h1 := b64chr_ne_pad (v := x / 4) (by omega)
      have h2 := b64chr_ne_pad (v := x % 4 * 16) (by omega)
      have h3 := isBase64Char_b64chr (v := x / 4) (by omega)
      have h4 := isBase64Char_b64chr (v := x % 4 * 16) (by omega)
      simp [encodeB64, paddingScan, h1, h2, h3, h4]
  | [x, y] => by
      intro hb
      have hx : x < 256 := hb x (by simp)
      have hy : y < 256 := hb y (by simp)
      have h1 := b64chr_ne_pad (v := x / 4) (by omega)
      have h2 := b64chr_ne_pad (v := x % 4 * 16 + y / 16) (by omega)
      have h3 := b64chr_ne_pad (v := y % 16 * 4) (by omega)
      have h4 := isBase64Char_b64chr (v := x / 4) (by omega)
      have h5 := isBase64Char_b64chr (v := x % 4 * 16 + y / 16) (by omega)
      have h6 := isBase64Char_b64chr (v := y % 16 * 4) (by omega)
      simp [encodeB64, paddingScan, h1, h2, h3, h4, h5, h6]
  | x :: y :: z :: rest => by
      intro hb
      have hx : x < 256 := hb x (by simp)
      have hy : y < 256 := hb y (by simp)
      have hz : z < 256 := hb z (by simp)
      have ih := paddingScan_encode rest (fun v hv => hb v (by simp [hv]))
      have h1 := b64chr_ne_pad (v := x / 4) (by omega)
      have h2 := b64chr_ne_pad (v := x % 4 * 16 + y / 16) (by omega)
      have h3 := b64chr_ne_pad (v := y % 16 * 4 + z / 64) (by omega)
      have h4 := b64chr_ne_pad (v := z % 64) (by omega)
      have h5 := isBase64Char_b64chr (v := x / 4) (by omega)
      have h6 := isBase64Char_b64chr (v := x % 4 * 16 + y / 16) (by omega)
      have h7 := isBase64Char_b64chr (v := y % 16 * 4 + z / 64) (by omega)
      have h8 := isBase64Char_b64chr (v := z % 64) (by omega)
      simp [encodeB64, paddingScan, h1, h2, h3, h4, h5, h6, h7, h8, ih]

theorem decodeB64_encodeB64 :
    ∀ b : List Nat, (∀ v ∈ b, v < 256) → decodeB64 (encodeB64 b) = some b
  | [] => fun _ => rfl
  | [x] => by
      intro hb
      have hx : x < 256 := hb x (by simp)
      have h1 := b64val_b64chr (v := x / 4) (by omega)
      have h2 := b64val_b64chr (v := x % 4 * 16) (by omega)
      simp [encodeB64, decodeB64, decodePair, h1, h2]
      omega
  | [x, y] => by
      intro hb
      have hx : x < 256 := hb x (by simp)
      have hy : y < 256 := hb y (by simp)
      have hc := b64chr_ne_pad (v := y % 16 * 4) (by omega)
      have h1 := b64val_b64chr (v := x / 4) (by omega)
      have h2 := b64val_b64chr (v := x % 4 * 16 + y / 16) (by omega)
      have h3 := b64val_b64chr (v := y % 16 * 4) (by omega)
      simp [encodeB64, decodeB64, decodeTrip, hc, h1, h2, h3]
      constructor <;> omega
  | x :: y :: z :: rest => by
      intro hb
      have hx : x < 256 := hb x (by simp)
      have hy : y < 256 := hb y (by simp)
      have hz : z < 256 := hb z (by simp)
      have ih := decodeB64_encodeB64 rest (fun v hv => hb v (by simp [hv]))
      have hc := b64chr_ne_pad (v := z % 64) (by omega)
      have h1 := b64val_b64chr (v := x / 4) (by omega)
      have h2 := b64val_b64chr (v := x % 4 * 16 + y / 16) (by omega)
      have h3 := b64val_b64chr (v := y % 16 * 4 + z / 64) (by omega)
      have h4 := b64val_b64chr (v := z % 64) (by omega)
      simp [encodeB64, decodeB64, decodeQuad, hc, h1, h2, h3, h4, ih]
      refine ⟨by omega, by omega, by omega⟩

theorem decodeB64_lt :
    ∀ (s : List Char) (b : List Nat), decodeB64 s = some b → ∀ v ∈ b, v < 256
  | [], b, h => by
      simp only [decodeB64, Option.some.injEq] at h
      subst h; simp
  | [_], b, h => by cases h
  | [_, _], b, h => by cases h
  | [_, _, _], b, h => by cases h
  | a1 :: a2 :: a3 :: a4 :: rest, b, h => by
      rw [decodeB64] at h
      split at h
      · split at h
        · unfold decodePair at h
          split at h
          next va vb hva hvb =>
            have := b64val_lt hva
            have := b64val_lt hvb
            simp only [Option.some.injEq] at h
            subst h
            intro v hv
            simp at hv
            omega
          next => cases h
        · unfold decodeTrip at h
          split at h
          next va vb vc hva hvb hvc =>
            have := b64val_lt hva
            have := b64val_lt hvb
            have := b64val_lt hvc
            simp only [Option.some.injEq] at h
            subst h
            intro v hv
            simp at hv
            rcases hv with hv | hv <;> omega
          next => cases h
      · split at h
        next grp tail hquad htail =>
          unfold decodeQuad at hquad
          split at hquad
          next va vb vc vd hva hvb hvc hvd =>
            have := b64val_lt hva
            have := b64val_lt hvb
            have := b64val_lt hvc
            have := b64val_lt hvd
            have ih := decodeB64_lt rest tail htail
            simp only [Option.some.injEq] at hquad h
            subst hquad
            subst h
            intro v hv
            simp at hv
            rcases hv with hv | hv | hv | hv
            · omega
            · omega
            · omega
            · exact ih v hv
          next => cases hquad
        next => cases h

theorem decodeStrict_ok_inv {s : List Char} {b : List Nat}
    (h : decodeStrictBase64 s = .ok b) :
    decodeB64 s = some b ∧ b ≠ [] ∧ encodeB64 b = s := by
  unfold decodeStrictBase64 at h
  split at h
  · cases h
  · split at h
    · cases h
    · split at h
      · cases h
      · next decoded heq =>
          split_ifs at h with hlen henc
          · injection h with h
            subst h
            push_neg at henc
            refine ⟨heq, ?_, henc⟩
            intro hnil
            subst hnil
            simp at hlen

/-- C6: `decodeStrictBase64` accepts a character string exactly when it is the
canonical base64 encoding of some non-empty byte string, and for every
accepted string re-encoding the decoded bytes reproduces the input
bit-for-bit. Every non-canonical variant (length not a multiple of 4,
misplaced padding, padding followed by payload characters, off-alphabet
characters, non-canonical trailing bits) is consequently rejected, being
the encoding of no byte string. -/
theorem base64_strict_decoder_canonical (s : List Char) :
    ((∃ bytes, decodeStrictBase64 s = .ok bytes) ↔
      ∃ b : List Nat, b ≠ [] ∧ (∀ v ∈ b, v < 256) ∧ s = encodeB64 b)
    ∧ (∀ b, decodeStrictBase64 s = .ok b → encodeB64 b = s ∧ b ≠ []) := by
  constructor
  · constructor
    · rintro ⟨bytes, hb⟩
      obtain ⟨hdec, hne, henc⟩ := decodeStrict_ok_inv hb
      exact ⟨bytes, hne, decodeB64_lt s bytes hdec, henc.symm⟩
    · rintro ⟨b, hne, hlt, rfl⟩
      refine ⟨b, ?_⟩
      have hd := decodeB64_encodeB64 b hlt
      simp [decodeStrictBase64, encodeB64_length_mod b, paddingScan_encode b hlt, hd, hne]
  · intro b hb
    obtain ⟨_, hne, henc⟩ := decodeStrict_ok_inv hb
    exact ⟨henc, hne⟩

/-- Witness for C6 at the concrete input `"aGk="` (the encoding of the bytes
104, 105): it is accepted, and the decoded bytes re-encode to the input. -/
theorem base64_strict_decoder_canonical_witness :
    (∃ bytes, decodeStrictBase64 "aGk=".toList = .ok bytes)
    ∧ encodeB64 [104, 105] = "aGk=".toList := by
  constructor
  · exact (base64_strict_decoder_canonical "aGk=".toList).1.mpr
      ⟨[104, 105], by decide, by decide, by decide⟩
  · exact ((base64_strict_decoder_canonical "aGk=".toList).2 [104, 105] (by decide)).1

/-! ## Pricing engine (from `src/pricing.ts`)

JS `number` arithmetic is modelled over `ℚ`; `Date.now()` is an explicit
`ℕ` millisecond parameter. The CoinGecko fetch outcome is an explicit
`Option ℚ` argument: `none` models any network/HTTP/parse failure or a
missing `celestia.usd` field (all of which the source's `try`/`catch`
collapses into the fallback), `some u` models a fetched numeric value,
whose plausibility check `u > 0` remains explicit (the JS `isFinite`
check has no counterpart in `ℚ`). -/

inductive TiaUsdSource
  | coingecko
  | fallback
deriving DecidableEq

structure PricingConfig where
  markupBps : ℚ
  fixedUsd : ℚ
  minUsd : ℚ
  tiaUsdFallback : ℚ
  tiaUsdSource : TiaUsdSource
deriving DecidableEq

structure CachedTiaUsd where
  value : ℚ
  fetchedAtMs : ℕ
deriving DecidableEq

/-- From `src/pricing.ts`: `Math.ceil(value * 10_000) / 10_000`. -/
def roundToUsdPrice (value : ℚ) : ℚ := (⌈value * 10000⌉ : ℚ) / 10000

structure MainnetReference where
  estimatedGas : ℚ
  gasPriceUtia : ℚ
  estimatedTia : ℚ
  tiaUsd : ℚ
  estimatedUsd : ℚ
deriving DecidableEq

structure PricingQuote where
  payloadBytes : ℕ
  mainnetReference : MainnetReference
  chargedUsd : ℚ
  chargedPriceString : String
deriving DecidableEq

/-- Left-pads the decimal digits of `n` with zeros to width 4. -/
def padZeros4 (n : ℕ) : String :=
  String.mk (List.replicate (4 - (toString n).length) '0') ++ toString n

/-- Models `Number.prototype.toFixed(4)` for the non-negative values produced
by the pricing engine: the nearest 4-decimal value (ties toward the larger),
rendered with exactly 4 fractional digits. -/
def usdToFixed4 (q : ℚ) : String :=
  toString ((⌊q * 10000 + 1 / 2⌋ : ℤ).natAbs / 10000) ++ "." ++
    padZeros4 ((⌊q * 10000 + 1 / 2⌋ : ℤ).natAbs % 10000)

/-- The `try`/`catch` fetch branch of `PricingEngine.loadTiaUsd`: an invalid
or failed fetch silently yields the configured static fallback (and leaves
the rate cache untouched); a plausible value is returned and cached. -/
def loadTiaUsdFetch (cfg : PricingConfig) (cached : Option CachedTiaUsd)
    (fetched : Option ℚ) (now : ℕ) : ℚ × Option CachedTiaUsd :=
  match fetched with
  | some usd => if 0 < usd then (usd, some ⟨usd, now⟩) else (cfg.tiaUsdFallback, cached)
  | none => (cfg.tiaUsdFallback, cached)

/-- From `PricingEngine.loadTiaUsd` in `src/pricing.ts`: configured fallback
source short-circuits; a cached rate younger than 60 000 ms is reused;
otherwise the fetch branch runs. -/
def loadTiaUsd (cfg : PricingConfig) (cached : Option CachedTiaUsd)
    (fetched : Option ℚ) (now : ℕ) : ℚ × Option CachedTiaUsd :=
  if cfg.tiaUsdSource = .fallback then (cfg.tiaUsdFallback, cached)
  else
    match cached with
    | some c =>
        if now - c.fetchedAtMs < 60000 then (c.value, cached)
        else loadTiaUsdFetch cfg cached fetched now
    | none => loadTiaUsdFetch cfg cached fetched now

/-- From `PricingEngine.quote` in `src/pricing.ts`. The two Celenium fetches
(`estimateGasForPfb`, `getGasPriceUtia`) are explicit `Except` arguments:
the `Promise.all` rejects (and the whole quote fails) iff either of them
fails, while `loadTiaUsd` never fails. Returns the quote together with the
updated exchange-rate cache. -/
def PricingEngine.quote (cfg : PricingConfig) (cached : Option CachedTiaUsd)
    (payloadBytes : ℕ) (estimateGasFetch gasPriceFetch : Except String ℚ)
    (tiaUsdFetch : Option ℚ) (now : ℕ) :
    Except String (PricingQuote × Option CachedTiaUsd) :=
  match estimateGasFetch, gasPriceFetch with
  | .ok estimatedGas, .ok gasPriceUtia =>
      let loaded := loadTiaUsd cfg cached tiaUsdFetch now
      let estimatedTia := estimatedGas * gasPriceUtia / 1000000
      let estimatedUsd := estimatedTia * loaded.1
      let withMarkup := estimatedUsd * (1 + cfg.markupBps / 10000) + cfg.fixedUsd
      let chargedUsd := max cfg.minUsd (roundToUsdPrice withMarkup)
      .ok ({ payloadBytes := payloadBytes,
             mainnetReference :=
               { estimatedGas := estimatedGas,
                 gasPriceUtia := gasPriceUtia,
                 estimatedTia := estimatedTia,
                 tiaUsd := loaded.1,
                 estimatedUsd := estimatedUsd },
             chargedUsd := chargedUsd,
             chargedPriceString := "$" ++ usdToFixed4 chargedUsd }, loaded.2)
  | .error e, _ => .error e
  | _, .error e => .error e

/-! ### Pricing theorems -/

theorem roundToUsdPrice_le (v : ℚ) : v ≤ roundToUsdPrice v := by
  unfold roundToUsdPrice
  rw [le_div_iff₀ (by norm_num : (0 : ℚ) < 10000)]
  exact Int.le_ceil (v * 10000)

theorem roundToUsdPrice_mul (v : ℚ) : roundToUsdPrice v * 10000 = ⌈v * 10000⌉ := by
  unfold roundToUsdPrice
  rw [div_mul_cancel₀]
  norm_num

/-- C3: every quote produced by the pricing engine satisfies
`chargedUsd = max(minUsd, ceil4(estimatedUsd * (1 + markupBps/10000) + fixedUsd))`,
hence `chargedUsd ≥ minUsd` unconditionally, and `chargedPriceString` is the
fixed 4-decimal rendering (`$` prefix plus `toFixed(4)`) of `chargedUsd`;
moreover `ceil4 = roundToUsdPrice` only ever rounds upward, to an exact
4-decimal value. -/
theorem pricing_charged_formula
    (cfg : PricingConfig) (cached : Option CachedTiaUsd) (pb : ℕ)
    (gasF gpF : Except String ℚ) (tiaF : Option ℚ) (now : ℕ)
    (pq : PricingQuote) (cached2 : Option CachedTiaUsd)
    (h : PricingEngine.quote cfg cached pb gasF gpF tiaF now = .ok (pq, cached2)) :
    pq.chargedUsd = max cfg.minUsd (roundToUsdPrice
        (pq.mainnetReference.estimatedUsd * (1 + cfg.markupBps / 10000) + cfg.fixedUsd))
    ∧ cfg.minUsd ≤ pq.chargedUsd
    ∧ pq.chargedPriceString = "$" ++ usdToFixed4 pq.chargedUsd
    ∧ (∀ v : ℚ, v ≤ roundToUsdPrice v ∧ roundToUsdPrice v * 10000 = ⌈v * 10000⌉) := by
  rcases gasF with e | estimatedGas
  · rcases gpF with e2 | g <;> simp [PricingEngine.quote] at h
  · rcases gpF with e2 | gasPriceUtia
    · simp [PricingEngine.quote] at h
    · unfold PricingEngine.quote at h
      simp only [Except.ok.injEq, Prod.mk.injEq] at h
      obtain ⟨hpq, -⟩ := h
      subst hpq
      refine ⟨rfl, le_max_left _ _, rfl, fun v => ⟨roundToUsdPrice_le v, roundToUsdPrice_mul v⟩⟩

def pricingCfgW : PricingConfig :=
  { markupBps := 2500, fixedUsd := 0, minUsd := 1 / 100,
    tiaUsdFallback := 1 / 2, tiaUsdSource := .coingecko }

def pricingQuoteW : PricingQuote :=
  { payloadBytes := 11,
    mainnetReference :=
      { estimatedGas := 70000, gasPriceUtia := 1 / 50, estimatedTia := 7 / 5000,
        tiaUsd := 1 / 2, estimatedUsd := 7 / 10000 },
    chargedUsd := 1 / 100,
    chargedPriceString := "$0.0100" }

theorem pricingQuoteW_eval_gen (tiaF : Option ℚ) (c2 : Option CachedTiaUsd)
    (hload : loadTiaUsd pricingCfgW none tiaF 0 = (1 / 2, c2)) :
    PricingEngine.quote pricingCfgW none 11 (.ok 70000) (.ok (1 / 50)) tiaF 0
      = .ok (pricingQuoteW, c2) := by
  unfold PricingEngine.quote roundToUsdPrice
  rw [hload]
  unfold pricingCfgW pricingQuoteW
  simp only [Except.ok.injEq, Prod.mk.injEq, PricingQuote.mk.injEq, MainnetReference.mk.injEq]
  norm_num
  have h9 : ((⌈(35 : ℚ) / 4⌉ : ℤ)) = 9 := by
    rw [Int.ceil_eq_iff]
    norm_num
  rw [h9]
  have hmax : ((1 : ℚ) / 100 ⊔ ((9 : ℤ) : ℚ) / 10000) = 1 / 100 := by
    rw [sup_eq_left]
    norm_num
  refine ⟨by norm_num, ?_⟩
  rw [hmax]
  unfold usdToFixed4 padZeros4
  have hfl : (⌊(1 : ℚ) / 100 * 10000 + 1 / 2⌋ : ℤ) = 100 := by norm_num
  rw [hfl]
  decide

theorem pricingQuoteW_eval :
    PricingEngine.quote pricingCfgW none 11 (.ok 70000) (.ok (1 / 50)) none 0
      = .ok (pricingQuoteW, none) :=
  pricingQuoteW_eval_gen none none rfl

/-- Witness for C3 at concrete inputs: payload 11 bytes, gas estimate 70000,
gas price 0.02 utia, rate fetch failed (fallback 0.5 used). -/
theorem pricing_charged_formula_witness :
    pricingCfgW.minUsd ≤ pricingQuoteW.chargedUsd
    ∧ pricingQuoteW.chargedPriceString = "$" ++ usdToFixed4 pricingQuoteW.chargedUsd := by
  have h := pricing_charged_formula pricingCfgW none 11 (.ok 70000) (.ok (1 / 50)) none 0
    pricingQuoteW none pricingQuoteW_eval
  exact ⟨h.2.1, h.2.2.1⟩

/-- C8 counterexample: the returned quote does not report which rate source
was chosen. The run whose CoinGecko fetch succeeded with 0.5 (chosen source
`coingecko`, witnessed by the rate-cache write) and the run whose fetch
failed (chosen source `fallback`, rate cache untouched) return the very same
`PricingQuote` value, so no field of the quote records the chosen source. -/
theorem rate_source_not_reported_counterexample :
    PricingEngine.quote pricingCfgW none 11 (.ok 70000) (.ok (1 / 50)) (some (1 / 2)) 0
      = .ok (pricingQuoteW, some ⟨1 / 2, 0⟩)
    ∧ PricingEngine.quote pricingCfgW none 11 (.ok 70000) (.ok (1 / 50)) none 0
      = .ok (pricingQuoteW, none) := by
  constructor
  · refine pricingQuoteW_eval_gen (some (1 / 2)) (some ⟨1 / 2, 0⟩) ?_
    norm_num [loadTiaUsd, loadTiaUsdFetch, pricingCfgW]
    rintro ⟨⟩
  · exact pricingQuoteW_eval_gen none none rfl

/-- C8 amended: the exchange-rate lookup never fails a quote — the quote
succeeds exactly when the gas-estimate and gas-price fetches both succeed,
regardless of the rate-fetch outcome — and a failed or implausible
(`≤ 0`) rate fetch silently falls back to the configured static rate when no
live cached rate exists. The chosen rate enters the quote only as the
numeric `tiaUsd`; no field of the quote identifies the source. -/
theorem rate_fallback_silent
    (cfg : PricingConfig) (cached : Option CachedTiaUsd) (pb : ℕ)
    (gasF gpF : Except String ℚ) (tiaF : Option ℚ) (now : ℕ) :
    ((∃ r, PricingEngine.quote cfg cached pb gasF gpF tiaF now = .ok r)
      ↔ (∃ g, gasF = .ok g) ∧ (∃ p, gpF = .ok p))
    ∧ ((tiaF = none ∨ ∃ u, tiaF = some u ∧ u ≤ 0) →
        (∀ c, cached = some c → 60000 ≤ now - c.fetchedAtMs) →
        (loadTiaUsd cfg cached tiaF now).1 = cfg.tiaUsdFallback) := by
  constructor
  · constructor
    · rintro ⟨r, hr⟩
      rcases gasF with e | g
      · rcases gpF with e2 | p <;> simp [PricingEngine.quote] at hr
      · rcases gpF with e2 | p
        · simp [PricingEngine.quote] at hr
        · exact ⟨⟨g, rfl⟩, ⟨p, rfl⟩⟩
    · rintro ⟨⟨g, rfl⟩, ⟨p, rfl⟩⟩
      exact ⟨_, rfl⟩
  · intro hbad hstale
    have hfetch : (loadTiaUsdFetch cfg cached tiaF now).1 = cfg.tiaUsdFallback := by
      rcases hbad with rfl | ⟨u, rfl, hu⟩
      · rfl
      · simp [loadTiaUsdFetch, not_lt.mpr hu]
    cases hsrc : cfg.tiaUsdSource
    case fallback => simp [loadTiaUsd, hsrc]
    case coingecko =>
      rcases cached with _ | c
      · simpa [loadTiaUsd, hsrc] using hfetch
      · have hnl : ¬(now - c.fetchedAtMs < 60000) := by
          have := hstale c rfl
          omega
        simpa [loadTiaUsd, hsrc, hnl] using hfetch

/-- Witness for the amended C8 at concrete inputs: with both gas fetches
succeeding and the rate fetch failing, the quote succeeds, and the fallback
rate is what the lookup returns. -/
theorem rate_fallback_silent_witness :
    (∃ r, PricingEngine.quote pricingCfgW none 11 (.ok 70000) (.ok (1 / 50)) none 0 = .ok r)
    ∧ (loadTiaUsd pricingCfgW none none 0).1 = pricingCfgW.tiaUsdFallback := by
  refine ⟨?_, ?_⟩
  · exact (rate_fallback_silent pricingCfgW none 11 (.ok 70000) (.ok (1 / 50)) none 0).1.mpr
      ⟨⟨70000, rfl⟩, ⟨1 / 50, rfl⟩⟩
  · exact (rate_fallback_silent pricingCfgW none 11 (.ok 70000) (.ok (1 / 50)) none 0).2
      (Or.inl rfl) (fun c hc => by cases hc)

/-! ## Association-list model of JS `Map` -/

/-- JS `Map.get`. -/
def alGet {α : Type} : List (String × α) → String → Option α
  | [], _ => none
  | (k2, v) :: rest, k => if k2 = k then some v else alGet rest k

/-- JS `Map.set` (replace if present, else insert). -/
def alSet {α : Type} : List (String × α) → String → α → List (String × α)
  | [], k, v => [(k, v)]
  | (k2, v2) :: rest, k, v =>
      if k2 = k then (k, v) :: rest else (k2, v2) :: alSet rest k v

/-- JS `Map.delete`. -/
def alDelete {α : Type} : List (String × α) → String → List (String × α)
  | [], _ => []
  | (k2, v2) :: rest, k =>
      if k2 = k then alDelete rest k else (k2, v2) :: alDelete rest k

theorem alGet_set_self {α : Type} (m : List (String × α)) (k : String) (v : α) :
    alGet (alSet m k v) k = some v := by
  induction m with
  | nil => simp [alGet, alSet]
  | cons p rest ih =>
      obtain ⟨k2, v2⟩ := p
      by_cases h : k2 = k <;> simp [alGet, alSet, h, ih]

theorem alGet_set_ne {α : Type} (m : List (String × α)) (k k2 : String) (v : α)
    (h : k2 ≠ k) : alGet (alSet m k2 v) k = alGet m k := by
  induction m with
  | nil => simp [alGet, alSet, h]
  | cons p rest ih =>
      obtain ⟨k3, v3⟩ := p
      by_cases h3 : k3 = k2
      · subst h3
        simp [alGet, alSet, h, Ne.symm h]
      · by_cases h4 : k3 = k <;> simp [alGet, alSet, h3, h4, ih, Ne.symm h]

theorem alGet_delete_self {α : Type} (m : List (String × α)) (k : String) :
    alGet (alDelete m k) k = none := by
  induction m with
  | nil => simp [alGet, alDelete]
  | cons p rest ih =>
      obtain ⟨k2, v2⟩ := p
      by_cases h : k2 = k <;> simp [alGet, alDelete, h, ih]

theorem alGet_delete_ne {α : Type} (m : List (String × α)) (k k2 : String)
    (h : k2 ≠ k) : alGet (alDelete m k2) k = alGet m k := by
  induction m with
  | nil => simp [alDelete]
  | cons p rest ih =>
      obtain ⟨k3, v3⟩ := p
      by_cases h3 : k3 = k2
      · subst h3
        simp [alGet, alDelete, h, ih]
      · by_cases h4 : k3 = k <;> simp [alGet, alDelete, h3, h4, ih, Ne.symm h]

theorem alGet_filter_of_keep {α : Type} (p : String × α → Bool)
    (m : List (String × α)) (k : String) (v : α)
    (h : alGet m k = some v) (hp : p (k, v) = true) :
    alGet (m.filter p) k = some v := by
  induction m with
  | nil => cases h
  | cons q rest ih =>
      obtain ⟨k2, v2⟩ := q
      by_cases h2 : k2 = k
      · subst h2
        simp only [alGet, if_pos] at h
        injection h with h
        subst h
        simp [List.filter, hp, alGet]
      · simp only [alGet, h2, if_false] at h
        by_cases hq : p (k2, v2) = true <;>
          simp [List.filter, hq, alGet, h2, ih h]

/-! ## Idempotency store (from `src/idempotency-store.ts`)

State is an association list keyed by the idempotency key; `Date.now()` is
an explicit `ℕ` parameter (the JS subtraction `now - createdAtMs > ttlMs`
agrees with truncated `ℕ` subtraction for the non-negative TTLs used). -/

inductive IdemStatus
  | processing
  | completed
  | failed
deriving DecidableEq

/-- The `idempotency` tag object embedded in every `/v1/blobs` body. -/
structure IdemTag where
  key : String
  replayed : Bool
  status : IdemStatus
deriving DecidableEq

/-- The success body built in the `try` branch of `app.post("/v1/blobs")`
(fields other than the `idempotency` tag): `status: "submitted"` is implied
by the constructor. -/
structure SuccessBody where
  mode : String
  namespaceId : String
  payloadBytes : ℕ
  txHash : String
  height : Option ℕ
  code : Option ℕ
  quote : PricingQuote
  refundPolicy : String
deriving DecidableEq

/-- The failure body built in the `catch` branch of `app.post("/v1/blobs")`
(fields other than the `idempotency` tag): `error: "Failed to submit blob
to Celestia"` is implied by the constructor. -/
structure FailureBody where
  details : String
  charged : Bool
  hint : Option String
  refundPolicy : String
deriving DecidableEq

/-- The non-tag fields of a stored `/v1/blobs` response body. -/
inductive BodyCore
  | submitted (b : SuccessBody)
  | submitFailed (b : FailureBody)
deriving DecidableEq

/-- A full stored response body: core fields plus the `idempotency` tag.
The replay path's spread `{...storedBody, idempotency: {...}}` keeps the
core and replaces the tag. -/
structure BodyObj where
  core : BodyCore
  idempotency : IdemTag
deriving DecidableEq

/-- Model of `IdempotencyRecord` from `src/idempotency-store.ts`. -/
structure IdemRecord where
  key : String
  fingerprint : String
  status : IdemStatus
  responseStatus : Option ℕ
  responseBody : Option BodyObj
  createdAtMs : ℕ
  updatedAtMs : ℕ
deriving DecidableEq

/-- The store's private `records` map. -/
abbrev StoreMap := List (String × IdemRecord)

/-- From `IdempotencyStore.isExpired`: `Date.now() - record.createdAtMs > ttlMs`. -/
def recExpired (ttl now : ℕ) (r : IdemRecord) : Bool := ttl < now - r.createdAtMs

/-- From `IdempotencyStore.pruneKey`: delete the record for `key` if expired. -/
def pruneKey (ttl : ℕ) (m : StoreMap) (k : String) (now : ℕ) : StoreMap :=
  match alGet m k with
  | none => m
  | some r => if recExpired ttl now r then alDelete m k else m

/-- From `IdempotencyStore.get`: lazy expiry of the key, then lookup. Returns the
looked-up record together with the (possibly pruned) map. -/
def storeGet (ttl : ℕ) (m : StoreMap) (k : String) (now : ℕ) :
    Option IdemRecord × StoreMap :=
  let m2 := pruneKey ttl m k now
  (alGet m2 k, m2)

/-- From `IdempotencyStore.begin`: return the existing live record unchanged, or
create a fresh `processing` record. -/
def storeBegin (ttl : ℕ) (m : StoreMap) (k f : String) (now : ℕ) :
    IdemRecord × StoreMap :=
  match storeGet ttl m k now with
  | (some r, m2) => (r, m2)
  | (none, m2) =>
      let created : IdemRecord :=
        { key := k, fingerprint := f, status := .processing,
          responseStatus := none, responseBody := none,
          createdAtMs := now, updatedAtMs := now }
      (created, alSet m2 k created)

/-- From `IdempotencyStore.complete`: no-op when the record is missing, else set
terminal `completed` state and the stored response. -/
def storeComplete (m : StoreMap) (k : String) (rs : ℕ) (b : BodyObj) (now : ℕ) :
    StoreMap :=
  match alGet m k with
  | none => m
  | some r =>
      alSet m k { r with status := .completed, responseStatus := some rs,
                         responseBody := some b, updatedAtMs := now }

/-- From `IdempotencyStore.fail`: no-op when the record is missing, else set
terminal `failed` state and the stored response. -/
def storeFail (m : StoreMap) (k : String) (rs : ℕ) (b : BodyObj) (now : ℕ) :
    StoreMap :=
  match alGet m k with
  | none => m
  | some r =>
      alSet m k { r with status := .failed, responseStatus := some rs,
                         responseBody := some b, updatedAtMs := now }

/-- From `IdempotencyStore.cleanup`: the periodic sweep deleting expired records. -/
def storeCleanup (ttl : ℕ) (m : StoreMap) (now : ℕ) : StoreMap :=
  m.filter (fun p => !recExpired ttl now p.2)

/-! ## Quote cache and `getOrCreateQuote` (from `src/index.ts`) -/

structure QuoteCacheEntry where
  fingerprint : String
  quote : PricingQuote
  expiresAt : ℕ
deriving DecidableEq

/-- The `quoteByIdempotencyKey` map. -/
abbrev QuoteCache := List (String × QuoteCacheEntry)

/-- Model of `ParsedBlobRequest` from `src/blob-request.ts` (the fields the
coordinator uses). -/
structure ParsedBlobRequest where
  namespaceIdB64 : String
  dataB64 : String
  payloadBytes : ℕ
  fingerprint : String
deriving DecidableEq

/-- JS `String.prototype.trim` on an `Idempotency-Key` header value,
modelled over the character list (ASCII whitespace). -/
def isTrimWhitespace (c : Char) : Bool :=
  c = ' ' || c = '\t' || c = '\n' || c = '\r' || c = '\x0b' || c = '\x0c'

def jsTrim (s : String) : String :=
  ⟨((s.data.dropWhile isTrimWhitespace).reverse.dropWhile isTrimWhitespace).reverse⟩

/-- The body of `getOrCreateQuote` after the key normalization
(`idempotencyKey?.trim()` has already been applied to produce
`normalizedKey`). `fresh` is the outcome `pricingEngine.quote` would
produce if invoked; it is consulted only on a cache miss. -/
def getOrCreateQuoteNormalized (ttl : ℕ) (qc : QuoteCache)
    (parsed : ParsedBlobRequest) (normalizedKey : Option String)
    (fresh : Except String PricingQuote) (now : ℕ) :
    Except String (PricingQuote × QuoteCache) :=
  let hit : Option PricingQuote :=
    match normalizedKey with
    | some k =>
        if k = "" then none
        else
          match alGet qc k with
          | some e =>
              if e.fingerprint = parsed.fingerprint ∧ now < e.expiresAt then
                some e.quote
              else none
          | none => none
    | none => none
  match hit with
  | some q => .ok (q, qc)
  | none =>
      match fresh with
      | .error e => .error e
      | .ok q =>
          match normalizedKey with
          | some k =>
              if k = "" then .ok (q, qc)
              else .ok (q, alSet qc k
                { fingerprint := parsed.fingerprint, quote := q,
                  expiresAt := now + ttl })
          | none => .ok (q, qc)

/-- From `getOrCreateQuote` in `src/index.ts`: on a live cache entry for the
trimmed key whose fingerprint matches, return the cached quote; otherwise
compute a fresh quote and (when a non-empty key is present) cache it with
the idempotency TTL. -/
def getOrCreateQuote (ttl : ℕ) (qc : QuoteCache) (parsed : ParsedBlobRequest)
    (idempotencyKey : Option String) (fresh : Except String PricingQuote)
    (now : ℕ) : Except String (PricingQuote × QuoteCache) :=
  getOrCreateQuoteNormalized ttl qc parsed (idempotencyKey.map jsTrim) fresh now

/-! ## The `POST /v1/blobs` handler (from `src/index.ts`, lines 421-543)

Each request is processed as one atomic step (the source awaits the quote
and the backend submission inside a single handler invocation). The two
awaited effects are explicit environment arguments: `quoteFresh` is the
outcome `pricingEngine.quote` would produce on a cache miss, and `submit`
is the outcome of `celestiaSubmitter.submitBlob` — `errSubmit` models a
thrown `CelestiaSubmitError` with its optional numeric `code`, `errOther`
any other exception (including a pricing failure, which the source's
`catch` also receives as a plain `Error`). The mocha gas-price lookup never
throws (`.catch(() => undefined)`) and only feeds the submit input, so it
needs no counterpart. `express.json` body parsing plus `parseBlobRequest`
are abstracted as the request's `body : Except String ParsedBlobRequest`. -/

structure ServerConfig where
  idempotencyTtlMs : ℕ
  maxPayloadBytes : ℕ
deriving DecidableEq

structure ServerState where
  store : StoreMap
  quoteCache : QuoteCache
deriving DecidableEq

structure BlobsRequest where
  idempotencyHeader : Option String
  body : Except String ParsedBlobRequest
deriving DecidableEq

/-- Model of `SubmitBlobResult` from `src/celestia-submitter.ts` (fields the handler
reads). -/
structure SubmitResultM where
  mode : String
  txHash : String
  height : Option ℕ
  code : Option ℕ
deriving DecidableEq

/-- Outcome of `celestiaSubmitter.submitBlob` as observed by the handler's
`try`/`catch`. -/
inductive SubmitOutcome
  | ok (r : SubmitResultM)
  | errSubmit (message : String) (code : Option ℕ)
  | errOther (message : String)
deriving DecidableEq

structure StepEnv where
  quoteFresh : Except String PricingQuote
  submit : SubmitOutcome
deriving DecidableEq

/-- The JSON payloads the handler can answer with. `obj` carries a stored
or fresh body: its core fields plus the `idempotency` tag (the replay
spread `{...storedBody, idempotency}` keeps the stored core and replaces
the tag; a record with no stored body spreads to the tag alone). -/
inductive RespPayload
  | errKeyRequired
  | errInvalid (details : String)
  | errTooLarge (maxPayloadBytes payloadBytes : ℕ)
  | errConflict (tag : IdemTag)
  | errStillProcessing (tag : IdemTag)
  | obj (core : Option BodyCore) (tag : IdemTag)
deriving DecidableEq

structure HttpResp where
  status : ℕ
  payload : RespPayload
deriving DecidableEq

def successRefundPolicy : String :=
  "If Celestia submit fails, this endpoint returns >=400 so x402 settlement does not execute (no charge)."

def failureRefundPolicy : String :=
  "No settlement is executed because this request failed (status >= 400), so no refund transfer is needed."

def tooLargeHint : String :=
  "Celestia rejected the blob transaction as too large. Reduce payload size."

/-- The handler after the `Idempotency-Key` trim (`key?` is
`req.header("idempotency-key")?.trim()`). -/
def handleBlobsKeyed (cfg : ServerConfig) (st : ServerState)
    (key? : Option String) (bodyParse : Except String ParsedBlobRequest)
    (env : StepEnv) (now : ℕ) : HttpResp × ServerState :=
  match key? with
  | none => (⟨400, .errKeyRequired⟩, st)
  | some k =>
    if k = "" then (⟨400, .errKeyRequired⟩, st)
    else
      match bodyParse with
      | .error d => (⟨400, .errInvalid d⟩, st)
      | .ok parsed =>
        if cfg.maxPayloadBytes < parsed.payloadBytes then
          (⟨413, .errTooLarge cfg.maxPayloadBytes parsed.payloadBytes⟩, st)
        else
          match storeGet cfg.idempotencyTtlMs st.store k now with
          | (some existing, store1) =>
            if existing.fingerprint ≠ parsed.fingerprint then
              (⟨409, .errConflict ⟨k, true, existing.status⟩⟩, ⟨store1, st.quoteCache⟩)
            else if existing.status = .processing then
              (⟨409, .errStillProcessing ⟨k, true, existing.status⟩⟩,
               ⟨store1, st.quoteCache⟩)
            else
              (⟨existing.responseStatus.getD 200,
                 .obj (existing.responseBody.map BodyObj.core) ⟨k, true, existing.status⟩⟩,
               ⟨store1, st.quoteCache⟩)
          | (none, store1) =>
            let store2 := (storeBegin cfg.idempotencyTtlMs store1 k parsed.fingerprint now).2
            match getOrCreateQuote cfg.idempotencyTtlMs st.quoteCache parsed (some k)
                env.quoteFresh now with
            | .error e =>
                let body : BodyObj :=
                  ⟨.submitFailed ⟨e, false, none, failureRefundPolicy⟩, ⟨k, false, .failed⟩⟩
                (⟨500, .obj (some body.core) body.idempotency⟩,
                 ⟨storeFail store2 k 500 body now, st.quoteCache⟩)
            | .ok (quote, qc2) =>
                match env.submit with
                | .ok r =>
                    let body : BodyObj :=
                      ⟨.submitted ⟨r.mode, parsed.namespaceIdB64, parsed.payloadBytes,
                                   r.txHash, r.height, r.code, quote, successRefundPolicy⟩,
                       ⟨k, false, .completed⟩⟩
                    (⟨200, .obj (some body.core) body.idempotency⟩,
                     ⟨storeComplete store2 k 200 body now, qc2⟩)
                | .errSubmit msg code =>
                    let rs : ℕ := if code = some 21 then 413 else 502
                    let hint : Option String :=
                      if code = some 21 then some tooLargeHint else none
                    let body : BodyObj :=
                      ⟨.submitFailed ⟨msg, false, hint, failureRefundPolicy⟩,
                       ⟨k, false, .failed⟩⟩
                    (⟨rs, .obj (some body.core) body.idempotency⟩,
                     ⟨storeFail store2 k rs body now, qc2⟩)
                | .errOther msg =>
                    let body : BodyObj :=
                      ⟨.submitFailed ⟨msg, false, none, failureRefundPolicy⟩,
                       ⟨k, false, .failed⟩⟩
                    (⟨500, .obj (some body.core) body.idempotency⟩,
                     ⟨storeFail store2 k 500 body now, qc2⟩)

/-- From `app.post("/v1/blobs")`: its first line trims the `Idempotency-Key`
header; everything else is `handleBlobsKeyed`. -/
def handleBlobs (cfg : ServerConfig) (st : ServerState) (req : BlobsRequest)
    (env : StepEnv) (now : ℕ) : HttpResp × ServerState :=
  handleBlobsKeyed cfg st (req.idempotencyHeader.map jsTrim) req.body env now

/-! ### Store lemmas -/

theorem pruneKey_of_get_none {ttl : ℕ} {m : StoreMap} {k : String} {now : ℕ}
    (h : alGet m k = none) : pruneKey ttl m k now = m := by
  unfold pruneKey
  rw [h]

theorem pruneKey_live {ttl : ℕ} {m : StoreMap} {k : String} {now : ℕ}
    {r : IdemRecord} (h : alGet m k = some r)
    (hl : recExpired ttl now r = false) : pruneKey ttl m k now = m := by
  simp [pruneKey, h, hl]

theorem storeGet_live {ttl : ℕ} {m : StoreMap} {k : String} {now : ℕ}
    {r : IdemRecord} (h : alGet m k = some r)
    (hl : recExpired ttl now r = false) : storeGet ttl m k now = (some r, m) := by
  simp [storeGet, pruneKey_live h hl, h]

theorem storeGet_of_get_none {ttl : ℕ} {m : StoreMap} {k : String} {now : ℕ}
    (h : alGet m k = none) : storeGet ttl m k now = (none, m) := by
  simp [storeGet, pruneKey_of_get_none h, h]

theorem storeGet_expired {ttl : ℕ} {m : StoreMap} {k : String} {now : ℕ}
    {r : IdemRecord} (h : alGet m k = some r)
    (hl : recExpired ttl now r = true) :
    storeGet ttl m k now = (none, alDelete m k) := by
  simp [storeGet, pruneKey, h, hl, alGet_delete_self]

/-! ### C1 -/

/-- C1: a later `POST /v1/blobs` carrying the same trimmed key and the same
fingerprint as a live terminal (`completed` or `failed`) record answers
with the record's stored `responseStatus` and stored body, its
`idempotency` tag replaced by `{key, replayed := true, status}`; the server
state (idempotency store and quote cache) is unchanged, and the outcome is
independent of the pricing/submission environment — no pricing computation
and no backend submission takes place. -/
theorem idempotent_replay
    (cfg : ServerConfig) (st : ServerState) (req : BlobsRequest)
    (env env2 : StepEnv) (now : ℕ) (k : String) (existing : IdemRecord)
    (parsed : ParsedBlobRequest) (s : ℕ) (b : BodyObj)
    (hk : req.idempotencyHeader.map jsTrim = some k) (hk0 : k ≠ "")
    (hb : req.body = .ok parsed)
    (hsize : parsed.payloadBytes ≤ cfg.maxPayloadBytes)
    (hget : alGet st.store k = some existing)
    (hlive : recExpired cfg.idempotencyTtlMs now existing = false)
    (hfp : existing.fingerprint = parsed.fingerprint)
    (hterm : existing.status = .completed ∨ existing.status = .failed)
    (hrs : existing.responseStatus = some s)
    (hrb : existing.responseBody = some b) :
    handleBlobs cfg st req env now
      = (⟨s, .obj (some b.core) ⟨k, true, existing.status⟩⟩, st)
    ∧ handleBlobs cfg st req env now = handleBlobs cfg st req env2 now := by
  have hns : ¬ existing.status = .processing := by
    rcases hterm with h | h <;> simp [h]
  have main : ∀ e : StepEnv, handleBlobs cfg st req e now
      = (⟨s, .obj (some b.core) ⟨k, true, existing.status⟩⟩, st) := by
    intro e
    simp [handleBlobs, handleBlobsKeyed, hk, hb, hk0, not_lt.mpr hsize,
          storeGet_live hget hlive, hfp, hns, hrs, hrb]
  exact ⟨main env, (main env).trans (main env2).symm⟩

/-! ### Concrete fixtures shared by the handler witnesses -/

def wQuote : PricingQuote :=
  { payloadBytes := 11,
    mainnetReference :=
      { estimatedGas := 1, gasPriceUtia := 1, estimatedTia := 1, tiaUsd := 1,
        estimatedUsd := 1 },
    chargedUsd := 1,
    chargedPriceString := "$1.0000" }

def wCfg : ServerConfig := { idempotencyTtlMs := 1000, maxPayloadBytes := 8192 }

def wParsed : ParsedBlobRequest :=
  { namespaceIdB64 := "ns", dataB64 := "dd", payloadBytes := 11, fingerprint := "f" }

def wBodyCompleted : BodyObj :=
  { core := .submitted
      { mode := "mock", namespaceId := "ns", payloadBytes := 11, txHash := "TX",
        height := none, code := some 0, quote := wQuote,
        refundPolicy := successRefundPolicy },
    idempotency := { key := "k", replayed := false, status := .completed } }

def wRecCompleted : IdemRecord :=
  { key := "k", fingerprint := "f", status := .completed,
    responseStatus := some 200, responseBody := some wBodyCompleted,
    createdAtMs := 0, updatedAtMs := 0 }

def wEnv : StepEnv :=
  { quoteFresh := .ok wQuote,
    submit := .ok { mode := "mock", txHash := "TX", height := none, code := some 0 } }

def wEnvDown : StepEnv := { quoteFresh := .error "pricing down", submit := .errOther "boom" }

/-- Witness for C1: replaying key `"k"` against a live completed record
returns the stored 200 response retagged as a replay, identically under a
healthy and a broken environment, leaving the state unchanged. -/
theorem idempotent_replay_witness :
    handleBlobs wCfg ⟨[("k", wRecCompleted)], []⟩ ⟨some "k", .ok wParsed⟩ wEnv 1
      = (⟨200, .obj (some wBodyCompleted.core) ⟨"k", true, .completed⟩⟩,
         ⟨[("k", wRecCompleted)], []⟩)
    ∧ handleBlobs wCfg ⟨[("k", wRecCompleted)], []⟩ ⟨some "k", .ok wParsed⟩ wEnv 1
      = handleBlobs wCfg ⟨[("k", wRecCompleted)], []⟩ ⟨some "k", .ok wParsed⟩ wEnvDown 1 :=
  idempotent_replay wCfg ⟨[("k", wRecCompleted)], []⟩ ⟨some "k", .ok wParsed⟩
    wEnv wEnvDown 1 "k" wRecCompleted wParsed 200 wBodyCompleted
    (by decide) (by decide) rfl (by decide) (by decide) (by decide) rfl
    (Or.inl rfl) rfl rfl

/-! ### C2 -/

/-- C2: a `POST /v1/blobs` whose trimmed key addresses a live record with a
different fingerprint answers 409 (conflict) with the state unchanged and
independently of the environment — no field changes, no new record, no
backend call; a same-fingerprint request that finds the record still
`processing` likewise answers 409 with the state unchanged. -/
theorem conflict_and_processing_409
    (cfg : ServerConfig) (st : ServerState) (req : BlobsRequest)
    (env env2 : StepEnv) (now : ℕ) (k : String) (existing : IdemRecord)
    (parsed : ParsedBlobRequest)
    (hk : req.idempotencyHeader.map jsTrim = some k) (hk0 : k ≠ "")
    (hb : req.body = .ok parsed)
    (hsize : parsed.payloadBytes ≤ cfg.maxPayloadBytes)
    (hget : alGet st.store k = some existing)
    (hlive : recExpired cfg.idempotencyTtlMs now existing = false) :
    (existing.fingerprint ≠ parsed.fingerprint →
      handleBlobs cfg st req env now
        = (⟨409, .errConflict ⟨k, true, existing.status⟩⟩, st)
      ∧ handleBlobs cfg st req env now = handleBlobs cfg st req env2 now)
    ∧ (existing.fingerprint = parsed.fingerprint →
       existing.status = .processing →
      handleBlobs cfg st req env now
        = (⟨409, .errStillProcessing ⟨k, true, existing.status⟩⟩, st)
      ∧ handleBlobs cfg st req env now = handleBlobs cfg st req env2 now) := by
  constructor
  · intro hfp
    have main : ∀ e : StepEnv, handleBlobs cfg st req e now
        = (⟨409, .errConflict ⟨k, true, existing.status⟩⟩, st) := by
      intro e
      simp [handleBlobs, handleBlobsKeyed, hk, hb, hk0, not_lt.mpr hsize,
            storeGet_live hget hlive, hfp]
    exact ⟨main env, (main env).trans (main env2).symm⟩
  · intro hfp hproc
    have main : ∀ e : StepEnv, handleBlobs cfg st req e now
        = (⟨409, .errStillProcessing ⟨k, true, existing.status⟩⟩, st) := by
      intro e
      simp [handleBlobs, handleBlobsKeyed, hk, hb, hk0, not_lt.mpr hsize,
            storeGet_live hget hlive, hfp, hproc]
    exact ⟨main env, (main env).trans (main env2).symm⟩

def wRecProcessing : IdemRecord :=
  { key := "k", fingerprint := "f", status := .processing,
    responseStatus := none, responseBody := none,
    createdAtMs := 0, updatedAtMs := 0 }

/-- Witness for C2: a different-fingerprint request against the completed
record gets 409, and a same-fingerprint request against a processing record
gets 409, both leaving the state unchanged. -/
theorem conflict_and_processing_409_witness :
    (handleBlobs wCfg ⟨[("k", wRecCompleted)], []⟩
        ⟨some "k", .ok { wParsed with fingerprint := "other" }⟩ wEnv 1
      = (⟨409, .errConflict ⟨"k", true, .completed⟩⟩, ⟨[("k", wRecCompleted)], []⟩))
    ∧ (handleBlobs wCfg ⟨[("k", wRecProcessing)], []⟩ ⟨some "k", .ok wParsed⟩ wEnv 1
      = (⟨409, .errStillProcessing ⟨"k", true, .processing⟩⟩,
         ⟨[("k", wRecProcessing)], []⟩)) := by
  constructor
  · exact ((conflict_and_processing_409 wCfg ⟨[("k", wRecCompleted)], []⟩
      ⟨some "k", .ok { wParsed with fingerprint := "other" }⟩ wEnv wEnvDown 1 "k"
      wRecCompleted { wParsed with fingerprint := "other" }
      (by decide) (by decide) rfl (by decide) (by decide) (by decide)).1
      (by decide)).1
  · exact ((conflict_and_processing_409 wCfg ⟨[("k", wRecProcessing)], []⟩
      ⟨some "k", .ok wParsed⟩ wEnv wEnvDown 1 "k" wRecProcessing wParsed
      (by decide) (by decide) rfl (by decide) (by decide) (by decide)).2
      rfl rfl).1

/-! ### C10 -/

/-- C10: `begin` on a key holding a live record returns that record
completely unchanged for every candidate fingerprint — including one
different from the stored fingerprint — never overwriting the record or
signalling a conflict (its result does not depend on the fingerprint
argument at all); and in the handler, whenever a live record exists for the
trimmed key, the idempotency store after the request equals the store
before it (conflict detection happens exclusively in the get-based lookup
before `begin` would run). -/
theorem begin_returns_existing_unchanged :
    (∀ (ttl : ℕ) (m : StoreMap) (k f f2 : String) (now : ℕ) (r : IdemRecord),
      alGet m k = some r → recExpired ttl now r = false →
      storeBegin ttl m k f now = (r, m)
      ∧ storeBegin ttl m k f now = storeBegin ttl m k f2 now)
    ∧ (∀ (cfg : ServerConfig) (st : ServerState) (req : BlobsRequest)
        (env : StepEnv) (now : ℕ) (k : String) (existing : IdemRecord)
        (parsed : ParsedBlobRequest),
      req.idempotencyHeader.map jsTrim = some k → k ≠ "" →
      req.body = .ok parsed → parsed.payloadBytes ≤ cfg.maxPayloadBytes →
      alGet st.store k = some existing →
      recExpired cfg.idempotencyTtlMs now existing = false →
      (handleBlobs cfg st req env now).2.store = st.store) := by
  constructor
  · intro ttl m k f f2 now r h hl
    have hb : ∀ g : String, storeBegin ttl m k g now = (r, m) := by
      intro g
      simp [storeBegin, storeGet_live h hl]
    exact ⟨hb f, (hb f).trans (hb f2).symm⟩
  · intro cfg st req env now k existing parsed hk hk0 hb hsize hget hlive
    by_cases hfp : existing.fingerprint = parsed.fingerprint
    · by_cases hst : existing.status = .processing
      · simp [handleBlobs, handleBlobsKeyed, hk, hb, hk0, not_lt.mpr hsize,
              storeGet_live hget hlive, hfp, hst]
      · simp [handleBlobs, handleBlobsKeyed, hk, hb, hk0, not_lt.mpr hsize,
              storeGet_live hget hlive, hfp, hst]
    · simp [handleBlobs, handleBlobsKeyed, hk, hb, hk0, not_lt.mpr hsize,
            storeGet_live hget hlive, hfp]

/-- Witness for C10: `begin` with the conflicting fingerprint `"other"`
returns the stored record untouched, and the handler leaves the store of a
state holding a live record unchanged. -/
theorem begin_returns_existing_unchanged_witness :
    storeBegin 1000 [("k", wRecCompleted)] "k" "other" 1
      = (wRecCompleted, [("k", wRecCompleted)])
    ∧ (handleBlobs wCfg ⟨[("k", wRecCompleted)], []⟩
        ⟨some "k", .ok { wParsed with fingerprint := "other" }⟩ wEnv 1).2.store
      = [("k", wRecCompleted)] := by
  constructor
  · exact (begin_returns_existing_unchanged.1 1000 [("k", wRecCompleted)] "k" "other" "f" 1
      wRecCompleted (by decide) (by decide)).1
  · exact begin_returns_existing_unchanged.2 wCfg ⟨[("k", wRecCompleted)], []⟩
      ⟨some "k", .ok { wParsed with fingerprint := "other" }⟩ wEnv 1 "k"
      wRecCompleted { wParsed with fingerprint := "other" }
      (by decide) (by decide) rfl (by decide) (by decide) (by decide)

/-! ### C9 -/

/-- C9: the `Idempotency-Key` header is trimmed before any use: two
requests whose raw keys trim to the same string are handled identically
(same idempotency record, same quote-cache entry, same response), a
whitespace-only key is treated as missing and rejected with 400 before any
side effect, and `getOrCreateQuote` likewise keys its cache by the trimmed
key. -/
theorem key_whitespace_trimming :
    (∀ (cfg : ServerConfig) (st : ServerState)
        (body : Except String ParsedBlobRequest) (env : StepEnv) (now : ℕ)
        (raw1 raw2 : String), jsTrim raw1 = jsTrim raw2 →
      handleBlobs cfg st ⟨some raw1, body⟩ env now
        = handleBlobs cfg st ⟨some raw2, body⟩ env now)
    ∧ (∀ (cfg : ServerConfig) (st : ServerState)
        (body : Except String ParsedBlobRequest) (env : StepEnv) (now : ℕ)
        (raw : String), jsTrim raw = "" →
      handleBlobs cfg st ⟨some raw, body⟩ env now = (⟨400, .errKeyRequired⟩, st))
    ∧ (∀ (ttl : ℕ) (qc : QuoteCache) (parsed : ParsedBlobRequest)
        (fresh : Except String PricingQuote) (now : ℕ) (raw1 raw2 : String),
      jsTrim raw1 = jsTrim raw2 →
      getOrCreateQuote ttl qc parsed (some raw1) fresh now
        = getOrCreateQuote ttl qc parsed (some raw2) fresh now) := by
  refine ⟨?_, ?_, ?_⟩
  · intro cfg st body env now raw1 raw2 h
    simp [handleBlobs, h]
  · intro cfg st body env now raw h
    simp [handleBlobs, handleBlobsKeyed, h]
  · intro ttl qc parsed fresh now raw1 raw2 h
    simp [getOrCreateQuote, h]

/-- Witness for C9: `"  demo-001 "` and `"demo-001"` are handled
identically, and a whitespace-only key is rejected with 400 and no state
change. -/
theorem key_whitespace_trimming_witness :
    handleBlobs wCfg ⟨[], []⟩ ⟨some "  demo-001 ", .ok wParsed⟩ wEnv 1
      = handleBlobs wCfg ⟨[], []⟩ ⟨some "demo-001", .ok wParsed⟩ wEnv 1
    ∧ handleBlobs wCfg ⟨[], []⟩ ⟨some "   ", .ok wParsed⟩ wEnv 1
      = (⟨400, .errKeyRequired⟩, ⟨[], []⟩)
    ∧ getOrCreateQuote 1000 [] wParsed (some " k ") (.ok wQuote) 1
      = getOrCreateQuote 1000 [] wParsed (some "k") (.ok wQuote) 1 := by
  refine ⟨?_, ?_, ?_⟩
  · exact key_whitespace_trimming.1 wCfg ⟨[], []⟩ (.ok wParsed) wEnv 1
      "  demo-001 " "demo-001" (by decide)
  · exact key_whitespace_trimming.2.1 wCfg ⟨[], []⟩ (.ok wParsed) wEnv 1 "   " (by decide)
  · exact key_whitespace_trimming.2.2 1000 [] wParsed (.ok wQuote) 1 " k " "k" (by decide)

/-! ### C5 -/

theorem gocqn_hit (ttl : ℕ) (qc : QuoteCache) (parsed : ParsedBlobRequest)
    (k : String) (e : QuoteCacheEntry) (fresh : Except String PricingQuote)
    (now : ℕ) (hk0 : k ≠ "") (hget : alGet qc k = some e)
    (hfp : e.fingerprint = parsed.fingerprint) (hlive : now < e.expiresAt) :
    getOrCreateQuoteNormalized ttl qc parsed (some k) fresh now = .ok (e.quote, qc) := by
  simp [getOrCreateQuoteNormalized, hk0, hget, hfp, hlive]

theorem gocqn_miss (ttl : ℕ) (qc : QuoteCache) (parsed : ParsedBlobRequest)
    (k : String) (q : PricingQuote) (now : ℕ) (hk0 : k ≠ "")
    (hmiss : ∀ e, alGet qc k = some e →
      ¬(e.fingerprint = parsed.fingerprint ∧ now < e.expiresAt)) :
    getOrCreateQuoteNormalized ttl qc parsed (some k) (.ok q) now
      = .ok (q, alSet qc k ⟨parsed.fingerprint, q, now + ttl⟩) := by
  rcases hget : alGet qc k with _ | e
  · simp [getOrCreateQuoteNormalized, hk0, hget]
  · have hm := hmiss e hget
    simp [getOrCreateQuoteNormalized, hk0, hget, hm]

/-- C5: with a non-empty trimmed key whose live cache entry stores the
request's fingerprint, `getOrCreateQuote` returns the cached quote and
leaves the cache unchanged for every possible fresh-pricing outcome (no
recomputation, so two calls inside the TTL return bit-identical quotes even
if upstream prices moved); when the stored fingerprint differs or the entry
has expired (or no entry exists), the fresh quote is computed and cached
under the key; with no key, the fresh quote is computed and never cached.
The final conjunct replays the two-call scenario: a first call that caches
`q` followed, within the TTL, by a second call under any environment
returns exactly `q` and the unchanged cache. -/
theorem quote_cache_stability
    (ttl : ℕ) (qc : QuoteCache) (parsed : ParsedBlobRequest) (k : String)
    (fresh fresh2 : Except String PricingQuote) (q : PricingQuote)
    (e : QuoteCacheEntry) (now now1 now2 : ℕ)
    (hkt : jsTrim k = k) (hk0 : k ≠ "") :
    (alGet qc k = some e → e.fingerprint = parsed.fingerprint →
      now < e.expiresAt →
      getOrCreateQuote ttl qc parsed (some k) fresh now = .ok (e.quote, qc))
    ∧ ((∀ e2, alGet qc k = some e2 →
        ¬(e2.fingerprint = parsed.fingerprint ∧ now < e2.expiresAt)) →
      getOrCreateQuote ttl qc parsed (some k) (.ok q) now
        = .ok (q, alSet qc k ⟨parsed.fingerprint, q, now + ttl⟩))
    ∧ getOrCreateQuote ttl qc parsed none fresh now
        = fresh.map (fun q2 => (q2, qc))
    ∧ (alGet qc k = none → now2 < now1 + ttl →
      getOrCreateQuote ttl qc parsed (some k) (.ok q) now1
        = .ok (q, alSet qc k ⟨parsed.fingerprint, q, now1 + ttl⟩)
      ∧ getOrCreateQuote ttl (alSet qc k ⟨parsed.fingerprint, q, now1 + ttl⟩)
          parsed (some k) fresh2 now2
        = .ok (q, alSet qc k ⟨parsed.fingerprint, q, now1 + ttl⟩)) := by
  refine ⟨?_, ?_, ?_, ?_⟩
  · intro hget hfp hlive
    simpa [getOrCreateQuote, hkt] using gocqn_hit ttl qc parsed k e fresh now hk0 hget hfp hlive
  · intro hmiss
    simpa [getOrCreateQuote, hkt] using gocqn_miss ttl qc parsed k q now hk0 hmiss
  · cases fresh <;> simp [getOrCreateQuote, getOrCreateQuoteNormalized, Except.map]
  · intro hnone hwin
    constructor
    · simpa [getOrCreateQuote, hkt] using gocqn_miss ttl qc parsed k q now1 hk0
        (fun e2 he2 => by rw [hnone] at he2; cases he2)
    · simpa [getOrCreateQuote, hkt] using gocqn_hit ttl
        (alSet qc k ⟨parsed.fingerprint, q, now1 + ttl⟩) parsed k
        ⟨parsed.fingerprint, q, now1 + ttl⟩ fresh2 now2 hk0
        (alGet_set_self qc k _) rfl hwin

/-- Witness for C5 at concrete inputs: an empty cache, a first call at time
1 caching the quote, and a second call at time 500 (inside the 1000 ms TTL)
with a failing pricing environment still returning the cached quote. -/
theorem quote_cache_stability_witness :
    getOrCreateQuote 1000 [] wParsed (some "k") (.ok wQuote) 1
      = .ok (wQuote, [("k", ⟨"f", wQuote, 1001⟩)])
    ∧ getOrCreateQuote 1000 [("k", ⟨"f", wQuote, 1001⟩)] wParsed (some "k")
        (.error "pricing down") 500
      = .ok (wQuote, [("k", ⟨"f", wQuote, 1001⟩)]) := by
  have h := quote_cache_stability 1000 [] wParsed "k" (.ok wQuote) (.error "pricing down")
    wQuote ⟨"f", wQuote, 1001⟩ 1 1 500 (by decide) (by decide)
  have h2 := (h.2.2.2 rfl (by omega))
  exact ⟨h2.1, h2.2⟩

/-! ### Store operation sequences (C7)

A `StoreOp` is one invocation of the public `IdempotencyStore` API at an
explicit time; `runOps` executes a sequence. `disciplinedOp` captures the
Coordinator's usage: `complete`/`fail` are only invoked while the record
under that key (if any) is in `processing` state. -/

inductive StoreOp
  | opBegin (k f : String) (now : ℕ)
  | opGet (k : String) (now : ℕ)
  | opComplete (k : String) (rs : ℕ) (b : BodyObj) (now : ℕ)
  | opFail (k : String) (rs : ℕ) (b : BodyObj) (now : ℕ)
  | opCleanup (now : ℕ)
deriving DecidableEq

def applyOp (ttl : ℕ) (m : StoreMap) : StoreOp → StoreMap
  | .opBegin k f now => (storeBegin ttl m k f now).2
  | .opGet k now => (storeGet ttl m k now).2
  | .opComplete k rs b now => storeComplete m k rs b now
  | .opFail k rs b now => storeFail m k rs b now
  | .opCleanup now => storeCleanup ttl m now

def runOps (ttl : ℕ) : StoreMap → List StoreOp → StoreMap
  | m, [] => m
  | m, op :: rest => runOps ttl (applyOp ttl m op) rest

def opTime : StoreOp → ℕ
  | .opBegin _ _ now => now
  | .opGet _ now => now
  | .opComplete _ _ _ now => now
  | .opFail _ _ _ now => now
  | .opCleanup now => now

/-- The Coordinator's discipline: terminal transitions only on a
`processing` record (or as a no-op on a missing key). -/
def disciplinedOp (m : StoreMap) : StoreOp → Bool
  | .opComplete k _ _ _ =>
      match alGet m k with
      | some r => decide (r.status = .processing)
      | none => true
  | .opFail k _ _ _ =>
      match alGet m k with
      | some r => decide (r.status = .processing)
      | none => true
  | _ => true

def disciplinedOps (ttl : ℕ) : StoreMap → List StoreOp → Bool
  | _, [] => true
  | m, op :: rest => disciplinedOp m op && disciplinedOps ttl (applyOp ttl m op) rest

/-! ### Preservation lemmas -/

theorem alGet_pruneKey_ne (ttl : ℕ) (m : StoreMap) (k2 : String) (now : ℕ)
    (k : String) (h : k2 ≠ k) : alGet (pruneKey ttl m k2 now) k = alGet m k := by
  rcases hg : alGet m k2 with _ | r
  · simp [pruneKey, hg]
  · by_cases he : recExpired ttl now r <;>
      simp [pruneKey, hg, he, alGet_delete_ne m k k2 h]

theorem alGet_storeBegin_ne (ttl : ℕ) (m : StoreMap) (k2 f : String) (now : ℕ)
    (k : String) (h : k2 ≠ k) :
    alGet (storeBegin ttl m k2 f now).2 k = alGet m k := by
  have hp := alGet_pruneKey_ne ttl m k2 now k h
  rcases hg : alGet (pruneKey ttl m k2 now) k2 with _ | r
  · simp [storeBegin, storeGet, hg, alGet_set_ne _ _ _ _ h, hp]
  · simp [storeBegin, storeGet, hg, hp]

theorem alGet_storeComplete_ne (m : StoreMap) (k2 : String) (rs : ℕ)
    (b : BodyObj) (now : ℕ) (k : String) (h : k2 ≠ k) :
    alGet (storeComplete m k2 rs b now) k = alGet m k := by
  rcases hg : alGet m k2 with _ | r <;>
    simp [storeComplete, hg, alGet_set_ne _ _ _ _ h]

theorem alGet_storeFail_ne (m : StoreMap) (k2 : String) (rs : ℕ)
    (b : BodyObj) (now : ℕ) (k : String) (h : k2 ≠ k) :
    alGet (storeFail m k2 rs b now) k = alGet m k := by
  rcases hg : alGet m k2 with _ | r <;>
    simp [storeFail, hg, alGet_set_ne _ _ _ _ h]

theorem alGet_storeCleanup_keep (ttl : ℕ) (m : StoreMap) (now : ℕ)
    (k : String) (r : IdemRecord) (h : alGet m k = some r)
    (hl : recExpired ttl now r = false) :
    alGet (storeCleanup ttl m now) k = some r :=
  alGet_filter_of_keep _ m k r h (by simp [hl])

/-- One disciplined store operation leaves a live terminal record exactly
as it is. -/
theorem applyOp_preserves_terminal (ttl : ℕ) (m : StoreMap) (op : StoreOp)
    (k : String) (r : IdemRecord) (hd : disciplinedOp m op = true)
    (hget : alGet m k = some r) (hterm : r.status ≠ .processing)
    (hlive : recExpired ttl (opTime op) r = false) :
    alGet (applyOp ttl m op) k = some r := by
  simp only [opTime] at hlive
  cases op with
  | opBegin k2 f now =>
      by_cases hk : k2 = k
      · subst hk
        simp [applyOp, storeBegin, storeGet_live hget hlive, hget]
      · simp [applyOp, alGet_storeBegin_ne ttl m k2 f now k hk, hget]
  | opGet k2 now =>
      by_cases hk : k2 = k
      · subst hk
        simp [applyOp, storeGet, pruneKey_live hget hlive, hget]
      · simp [applyOp, storeGet, alGet_pruneKey_ne ttl m k2 now k hk, hget]
  | opComplete k2 rs b now =>
      by_cases hk : k2 = k
      · subst hk
        simp only [disciplinedOp] at hd
        rw [hget] at hd
        simp at hd
        exact absurd hd hterm
      · simp [applyOp, alGet_storeComplete_ne m k2 rs b now k hk, hget]
  | opFail k2 rs b now =>
      by_cases hk : k2 = k
      · subst hk
        simp only [disciplinedOp] at hd
        rw [hget] at hd
        simp at hd
        exact absurd hd hterm
      · simp [applyOp, alGet_storeFail_ne m k2 rs b now k hk, hget]
  | opCleanup now =>
      simp [applyOp, alGet_storeCleanup_keep ttl m now k r hget hlive]

/-- A live terminal record survives any disciplined operation sequence
whose operations all run before the record expires. -/
theorem runOps_preserves_terminal (ttl : ℕ) :
    ∀ (ops : List StoreOp) (m : StoreMap) (k : String) (r : IdemRecord),
      disciplinedOps ttl m ops = true → alGet m k = some r →
      r.status ≠ .processing →
      (∀ op ∈ ops, recExpired ttl (opTime op) r = false) →
      alGet (runOps ttl m ops) k = some r
  | [], m, k, r, _, hget, _, _ => hget
  | op :: rest, m, k, r, hd, hget, hterm, hlive => by
      rw [disciplinedOps, Bool.and_eq_true] at hd
      have hstep := applyOp_preserves_terminal ttl m op k r hd.1 hget hterm
        (hlive op (by simp))
      exact runOps_preserves_terminal ttl rest (applyOp ttl m op) k r hd.2 hstep hterm
        (fun o ho => hlive o (by simp [ho]))

/-! ### C7 -/

def wBodyFailed : BodyObj :=
  { core := .submitFailed
      { details := "boom", charged := false, hint := none,
        refundPolicy := failureRefundPolicy },
    idempotency := { key := "k", replayed := false, status := .failed } }

/-- C7 counterexample: over an arbitrary sequence of raw store operations
the lifecycle invariant fails — `complete` followed by `fail` on the same
key moves the record from `completed` back to `failed` (the store itself
never guards terminal states; only the Coordinator's usage does). -/
theorem store_lifecycle_counterexample :
    (alGet (runOps 1000 []
        [.opBegin "k" "f" 0, .opComplete "k" 200 wBodyCompleted 0]) "k").map
          IdemRecord.status = some .completed
    ∧ (alGet (runOps 1000 []
        [.opBegin "k" "f" 0, .opComplete "k" 200 wBodyCompleted 0,
         .opFail "k" 500 wBodyFailed 0]) "k").map
          IdemRecord.status = some .failed := by
  constructor <;> decide

/-- C7 amended: under the Coordinator's discipline (terminal transitions
are only ever applied to a `processing` record), the lifecycle claim holds:
`begin` creates a record at most once per live key and always in
`processing` status (an existing live record is returned unchanged);
`complete`/`fail` transition an existing record to its terminal state and
are no-ops on a missing key; and a terminal record is never modified again
by any disciplined operation sequence while it lives — once `completed` it
never becomes `failed` or `processing`, and symmetrically. -/
theorem store_lifecycle_disciplined :
    (∀ (ttl : ℕ) (m : StoreMap) (k f : String) (now : ℕ),
      alGet (pruneKey ttl m k now) k = none →
      (storeBegin ttl m k f now).1
        = ⟨k, f, .processing, none, none, now, now⟩
      ∧ alGet (storeBegin ttl m k f now).2 k
        = some ⟨k, f, .processing, none, none, now, now⟩)
    ∧ (∀ (ttl : ℕ) (m : StoreMap) (k f : String) (now : ℕ) (r : IdemRecord),
      alGet (pruneKey ttl m k now) k = some r →
      storeBegin ttl m k f now = (r, pruneKey ttl m k now))
    ∧ (∀ (m : StoreMap) (k : String) (rs : ℕ) (b : BodyObj) (now : ℕ),
      alGet m k = none →
      storeComplete m k rs b now = m ∧ storeFail m k rs b now = m)
    ∧ (∀ (m : StoreMap) (k : String) (rs : ℕ) (b : BodyObj) (now : ℕ)
        (r : IdemRecord), alGet m k = some r →
      alGet (storeComplete m k rs b now) k
        = some { r with status := .completed, responseStatus := some rs,
                        responseBody := some b, updatedAtMs := now }
      ∧ alGet (storeFail m k rs b now) k
        = some { r with status := .failed, responseStatus := some rs,
                        responseBody := some b, updatedAtMs := now })
    ∧ (∀ (ttl : ℕ) (ops : List StoreOp) (m : StoreMap) (k : String)
        (r : IdemRecord),
      disciplinedOps ttl m ops = true → alGet m k = some r →
      r.status ≠ .processing →
      (∀ op ∈ ops, recExpired ttl (opTime op) r = false) →
      alGet (runOps ttl m ops) k = some r) := by
  refine ⟨?_, ?_, ?_, ?_, ?_⟩
  · intro ttl m k f now h
    exact ⟨by simp [storeBegin, storeGet, h], by simp [storeBegin, storeGet, h, alGet_set_self]⟩
  · intro ttl m k f now r h
    simp [storeBegin, storeGet, h]
  · intro m k rs b now h
    exact ⟨by simp [storeComplete, h], by simp [storeFail, h]⟩
  · intro m k rs b now r h
    exact ⟨by simp [storeComplete, h, alGet_set_self], by simp [storeFail, h, alGet_set_self]⟩
  · intro ttl ops m k r hd hget hterm hlive
    exact runOps_preserves_terminal ttl ops m k r hd hget hterm hlive

/-- Witness for the amended C7: a fresh `begin` on an empty store creates
the `processing` record, and the live completed record for `"k"` survives a
disciplined sequence touching other keys and sweeping. -/
theorem store_lifecycle_disciplined_witness :
    (storeBegin 1000 [] "k" "f" 5).1
      = ⟨"k", "f", .processing, none, none, 5, 5⟩
    ∧ alGet (runOps 1000 [("k", wRecCompleted)]
        [.opBegin "k2" "g" 1, .opGet "k" 1, .opCleanup 1]) "k"
      = some wRecCompleted := by
  constructor
  · exact (store_lifecycle_disciplined.1 1000 [] "k" "f" 5 (by decide)).1
  · exact store_lifecycle_disciplined.2.2.2.2 1000
      [.opBegin "k2" "g" 1, .opGet "k" 1, .opCleanup 1]
      [("k", wRecCompleted)] "k" wRecCompleted (by decide) (by decide)
      (by decide) (by decide)

/-! ### Handler step sequences (C4) -/

structure BlobStep where
  req : BlobsRequest
  env : StepEnv
  now : ℕ
deriving DecidableEq

def runBlobSteps (cfg : ServerConfig) : ServerState → List BlobStep → ServerState
  | st, [] => st
  | st, s :: rest => runBlobSteps cfg (handleBlobs cfg st s.req s.env s.now).2 rest

/-- The record `begin` creates. -/
def processingRecord (k f : String) (now : ℕ) : IdemRecord :=
  ⟨k, f, .processing, none, none, now, now⟩

/-- The body stored by the handler's `catch` branch. -/
def failedBody (msg : String) (hint : Option String) (k : String) : BodyObj :=
  ⟨.submitFailed ⟨msg, false, hint, failureRefundPolicy⟩, ⟨k, false, .failed⟩⟩

/-- The record after `fail` on a freshly begun record. -/
def failedRecord (k f : String) (rs : ℕ) (b : BodyObj) (now : ℕ) : IdemRecord :=
  ⟨k, f, .failed, some rs, some b, now, now⟩

/-- One handler step leaves a live terminal record exactly as it is,
whatever key, payload and environment the step carries. -/
theorem handleBlobs_preserves_live_terminal (cfg : ServerConfig)
    (st : ServerState) (req : BlobsRequest) (env : StepEnv) (now : ℕ)
    (k : String) (r : IdemRecord) (hget : alGet st.store k = some r)
    (hterm : r.status ≠ .processing)
    (hlive : recExpired cfg.idempotencyTtlMs now r = false) :
    alGet (handleBlobs cfg st req env now).2.store k = some r := by
  unfold handleBlobs
  rcases hh : req.idempotencyHeader.map jsTrim with _ | k2
  · simpa [handleBlobsKeyed] using hget
  · by_cases hk2 : k2 = ""
    · simpa [handleBlobsKeyed, hk2] using hget
    · rcases hbody : req.body with e | parsed
      · simpa [handleBlobsKeyed, hk2, hbody] using hget
      · by_cases hsz : cfg.maxPayloadBytes < parsed.payloadBytes
        · simpa [handleBlobsKeyed, hk2, hbody, hsz] using hget
        · by_cases hk : k2 = k
          · subst hk
            by_cases hfp : r.fingerprint = parsed.fingerprint
            · simpa [handleBlobsKeyed, hk2, hbody, hsz, storeGet_live hget hlive,
                     hfp, hterm] using hget
            · simpa [handleBlobsKeyed, hk2, hbody, hsz, storeGet_live hget hlive,
                     hfp] using hget
          · have hp : alGet (pruneKey cfg.idempotencyTtlMs st.store k2 now) k
                = alGet st.store k := alGet_pruneKey_ne _ _ _ _ _ hk
            rcases hex : alGet (pruneKey cfg.idempotencyTtlMs st.store k2 now) k2
              with _ | existing
            · have hsg : storeGet cfg.idempotencyTtlMs st.store k2 now
                  = (none, pruneKey cfg.idempotencyTtlMs st.store k2 now) := by
                simp [storeGet, hex]
              have hbg : alGet (storeBegin cfg.idempotencyTtlMs
                  (pruneKey cfg.idempotencyTtlMs st.store k2 now) k2
                  parsed.fingerprint now).2 k = some r := by
                rw [alGet_storeBegin_ne _ _ _ _ _ _ hk, hp]
                exact hget
              rcases hq : getOrCreateQuote cfg.idempotencyTtlMs st.quoteCache parsed
                  (some k2) env.quoteFresh now with e | pq
              · simp only [handleBlobsKeyed, hh, hk2, hbody, hsz, hsg, hq]
                simpa [hk2, hsz, alGet_storeFail_ne _ _ _ _ _ _ hk] using hbg
              · obtain ⟨q, qc2⟩ := pq
                rcases hsub : env.submit with rr | ⟨msg, code⟩ | msg
                · simp only [handleBlobsKeyed, hh, hk2, hbody, hsz, hsg, hq, hsub]
                  simpa [hk2, hsz, alGet_storeComplete_ne _ _ _ _ _ _ hk] using hbg
                · simp only [handleBlobsKeyed, hh, hk2, hbody, hsz, hsg, hq, hsub]
                  simpa [hk2, hsz, alGet_storeFail_ne _ _ _ _ _ _ hk] using hbg
                · simp only [handleBlobsKeyed, hh, hk2, hbody, hsz, hsg, hq, hsub]
                  simpa [hk2, hsz, alGet_storeFail_ne _ _ _ _ _ _ hk] using hbg
            · have hsg : storeGet cfg.idempotencyTtlMs st.store k2 now
                  = (some existing, pruneKey cfg.idempotencyTtlMs st.store k2 now) := by
                simp [storeGet, hex]
              by_cases hfp : existing.fingerprint = parsed.fingerprint
              · by_cases hst : existing.status = .processing
                · simp only [handleBlobsKeyed, hh, hk2, hbody, hsz, hsg]
                  simpa [hk2, hsz, hfp, hst, hp] using hget
                · simp only [handleBlobsKeyed, hh, hk2, hbody, hsz, hsg]
                  simpa [hk2, hsz, hfp, hst, hp] using hget
              · simp only [handleBlobsKeyed, hh, hk2, hbody, hsz, hsg]
                simpa [hk2, hsz, hfp, hp] using hget

/-- A live terminal record survives any sequence of handler steps whose
times all precede its expiry. -/
theorem runBlobSteps_preserves_terminal (cfg : ServerConfig) :
    ∀ (steps : List BlobStep) (st : ServerState) (k : String) (r : IdemRecord),
      alGet st.store k = some r → r.status ≠ .processing →
      (∀ s ∈ steps, recExpired cfg.idempotencyTtlMs s.now r = false) →
      alGet (runBlobSteps cfg st steps).store k = some r
  | [], _, _, _, hget, _, _ => hget
  | s :: rest, st, k, r, hget, hterm, hlive => by
      have hstep := handleBlobs_preserves_live_terminal cfg st s.req s.env s.now k r
        hget hterm (hlive s (by simp))
      exact runBlobSteps_preserves_terminal cfg rest _ k r hstep hterm
        (fun o ho => hlive o (by simp [ho]))

/-! ### C4 -/

def wRecFailed : IdemRecord :=
  { key := "k", fingerprint := "f", status := .failed,
    responseStatus := some 502, responseBody := some wBodyFailed,
    createdAtMs := 0, updatedAtMs := 0 }

/-- C4 counterexample: a completed record CAN be created for the same key
and fingerprint after a failure, once the failed record expires. With TTL
1000 ms, the failed record written at time 0 is expired at time 2000; the
identical request then lazily evicts it, begins anew, the backend
succeeds, and a completed record for key `"k"` / fingerprint `"f"` exists —
refuting the unqualified "no completed record is ever created for that key
with the same fingerprint afterward". -/
theorem failed_then_completed_after_expiry_counterexample :
    wRecFailed.status = .failed ∧ wRecFailed.fingerprint = "f"
    ∧ alGet (handleBlobs wCfg ⟨[("k", wRecFailed)], []⟩
        ⟨some "k", .ok wParsed⟩ wEnv 2000).2.store "k"
      = some ⟨"k", "f", .completed, some 200, some wBodyCompleted, 2000, 2000⟩ := by
  refine ⟨rfl, rfl, ?_⟩
  decide

/-- C4 amended: when the submission path of a fresh `POST /v1/blobs` throws,
a backend error with the payload-too-large code 21 yields 413, any other
backend (`CelestiaSubmitError`) outcome yields 502, any other exception —
including a pricing failure — yields 500; in each case (all with status
≥ 400) the record is marked `failed` with exactly that response, a later
same-key same-fingerprint request replays that stored failed response
verbatim (tagged as a replay), and while the failed record is live
(unexpired) no handler step ever modifies it, so no completed record is
created for that key and fingerprint before the failed record expires. -/
theorem submit_failure_classification :
    (∀ (cfg : ServerConfig) (st : ServerState) (req : BlobsRequest)
       (env : StepEnv) (now : ℕ) (k : String) (parsed : ParsedBlobRequest)
       (msg : String) (code : Option ℕ) (q : PricingQuote) (qc2 : QuoteCache),
      req.idempotencyHeader.map jsTrim = some k → k ≠ "" →
      req.body = .ok parsed → parsed.payloadBytes ≤ cfg.maxPayloadBytes →
      alGet st.store k = none →
      getOrCreateQuote cfg.idempotencyTtlMs st.quoteCache parsed (some k)
        env.quoteFresh now = .ok (q, qc2) →
      env.submit = .errSubmit msg code →
      handleBlobs cfg st req env now
        = (⟨if code = some 21 then 413 else 502,
            .obj (some (failedBody msg
                (if code = some 21 then some tooLargeHint else none) k).core)
              ⟨k, false, .failed⟩⟩,
           ⟨alSet (alSet st.store k (processingRecord k parsed.fingerprint now)) k
              (failedRecord k parsed.fingerprint (if code = some 21 then 413 else 502)
                (failedBody msg (if code = some 21 then some tooLargeHint else none) k)
                now), qc2⟩)
      ∧ 400 ≤ (if code = some 21 then 413 else 502 : ℕ))
    ∧ (∀ (cfg : ServerConfig) (st : ServerState) (req : BlobsRequest)
        (env : StepEnv) (now : ℕ) (k : String) (parsed : ParsedBlobRequest)
        (msg : String) (q : PricingQuote) (qc2 : QuoteCache),
      req.idempotencyHeader.map jsTrim = some k → k ≠ "" →
      req.body = .ok parsed → parsed.payloadBytes ≤ cfg.maxPayloadBytes →
      alGet st.store k = none →
      getOrCreateQuote cfg.idempotencyTtlMs st.quoteCache parsed (some k)
        env.quoteFresh now = .ok (q, qc2) →
      env.submit = .errOther msg →
      handleBlobs cfg st req env now
        = (⟨500, .obj (some (failedBody msg none k).core) ⟨k, false, .failed⟩⟩,
           ⟨alSet (alSet st.store k (processingRecord k parsed.fingerprint now)) k
              (failedRecord k parsed.fingerprint 500 (failedBody msg none k) now),
            qc2⟩))
    ∧ (∀ (cfg : ServerConfig) (st : ServerState) (req : BlobsRequest)
        (env : StepEnv) (now : ℕ) (k : String) (parsed : ParsedBlobRequest)
        (e : String),
      req.idempotencyHeader.map jsTrim = some k → k ≠ "" →
      req.body = .ok parsed → parsed.payloadBytes ≤ cfg.maxPayloadBytes →
      alGet st.store k = none →
      getOrCreateQuote cfg.idempotencyTtlMs st.quoteCache parsed (some k)
        env.quoteFresh now = .error e →
      handleBlobs cfg st req env now
        = (⟨500, .obj (some (failedBody e none k).core) ⟨k, false, .failed⟩⟩,
           ⟨alSet (alSet st.store k (processingRecord k parsed.fingerprint now)) k
              (failedRecord k parsed.fingerprint 500 (failedBody e none k) now),
            st.quoteCache⟩))
    ∧ (∀ (cfg : ServerConfig) (st : ServerState) (req : BlobsRequest)
        (env : StepEnv) (now : ℕ) (k : String) (existing : IdemRecord)
        (parsed : ParsedBlobRequest) (s : ℕ) (b : BodyObj),
      req.idempotencyHeader.map jsTrim = some k → k ≠ "" →
      req.body = .ok parsed → parsed.payloadBytes ≤ cfg.maxPayloadBytes →
      alGet st.store k = some existing →
      recExpired cfg.idempotencyTtlMs now existing = false →
      existing.fingerprint = parsed.fingerprint → existing.status = .failed →
      existing.responseStatus = some s → existing.responseBody = some b →
      handleBlobs cfg st req env now
        = (⟨s, .obj (some b.core) ⟨k, true, .failed⟩⟩, st))
    ∧ (∀ (cfg : ServerConfig) (st : ServerState) (steps : List BlobStep)
        (k : String) (r : IdemRecord),
      alGet st.store k = some r → r.status = .failed →
      (∀ s ∈ steps, recExpired cfg.idempotencyTtlMs s.now r = false) →
      alGet (runBlobSteps cfg st steps).store k = some r) := by
  refine ⟨?_, ?_, ?_, ?_, ?_⟩
  · intro cfg st req env now k parsed msg code q qc2 hk hk0 hb hsize hnone hq hsub
    refine ⟨?_, by split <;> omega⟩
    simp [handleBlobs, handleBlobsKeyed, hk, hb, hk0, not_lt.mpr hsize,
          storeGet_of_get_none hnone, hq, hsub, storeBegin, storeFail,
          alGet_set_self, failedBody, failedRecord, processingRecord]
  · intro cfg st req env now k parsed msg q qc2 hk hk0 hb hsize hnone hq hsub
    simp [handleBlobs, handleBlobsKeyed, hk, hb, hk0, not_lt.mpr hsize,
          storeGet_of_get_none hnone, hq, hsub, storeBegin, storeFail,
          alGet_set_self, failedBody, failedRecord, processingRecord]
  · intro cfg st req env now k parsed e hk hk0 hb hsize hnone hq
    simp [handleBlobs, handleBlobsKeyed, hk, hb, hk0, not_lt.mpr hsize,
          storeGet_of_get_none hnone, hq, storeBegin, storeFail,
          alGet_set_self, failedBody, failedRecord, processingRecord]
  · intro cfg st req env now k existing parsed s b hk hk0 hb hsize hget hlive hfp
      hst hrs hrb
    simp [handleBlobs, handleBlobsKeyed, hk, hb, hk0, not_lt.mpr hsize,
          storeGet_live hget hlive, hfp, hst, hrs, hrb]
  · intro cfg st steps k r hget hst hlive
    exact runBlobSteps_preserves_terminal cfg steps st k r hget (by simp [hst]) hlive

/-- Witness for the amended C4 at concrete inputs: a code-21 backend error
on a fresh key yields 413 with the failed record stored, and the live
failed record survives a later same-key step executed before expiry. -/
theorem submit_failure_classification_witness :
    handleBlobs wCfg ⟨[], []⟩ ⟨some "k", .ok wParsed⟩
      ⟨.ok wQuote, .errSubmit "too large" (some 21)⟩ 1
      = (⟨413, .obj (some (failedBody "too large" (some tooLargeHint) "k").core)
            ⟨"k", false, .failed⟩⟩,
         ⟨alSet (alSet [] "k" (processingRecord "k" "f" 1)) "k"
            (failedRecord "k" "f" 413 (failedBody "too large" (some tooLargeHint) "k") 1),
          alSet [] "k" ⟨"f", wQuote, 1001⟩⟩)
    ∧ alGet (runBlobSteps wCfg ⟨[("k", wRecFailed)], []⟩
        [⟨⟨some "k", .ok wParsed⟩, wEnv, 500⟩]).store "k" = some wRecFailed := by
  constructor
  · exact ((submit_failure_classification.1 wCfg ⟨[], []⟩ ⟨some "k", .ok wParsed⟩
      ⟨.ok wQuote, .errSubmit "too large" (some 21)⟩ 1 "k" wParsed "too large"
      (some 21) wQuote (alSet [] "k" ⟨"f", wQuote, 1001⟩)
      (by decide) (by decide) rfl (by decide) rfl (by decide) rfl).1)
  · exact submit_failure_classification.2.2.2.2 wCfg ⟨[("k", wRecFailed)], []⟩
      [⟨⟨some "k", .ok wParsed⟩, wEnv, 500⟩] "k" wRecFailed
      (by decide) rfl (by decide)

end X402
